import Mathlib

/-!
# Verification of the nofx AI decision-engine core

Shallow embedding of the decision-cycle pipeline of `market/ai_decision_engine.go`
(the richer "system + user prompt" variant, lines 654-1254, which the spec follows).

Modelling conventions:
* Go `float64` fields are modelled as exact rationals `ℚ` (no claim concerns
  float rounding); Go `int` is modelled as `Int`.
* Go strings are Lean `String`s; the byte-indexed scans of the source
  (`strings.Index`, slicing at positions of ASCII characters `[`/`]`) are
  modelled on the character list `String.data`, which agrees with the byte
  view because the indices involved are positions of ASCII characters.
* Decimal renderings of `fmt` verbs (`%.2f`, `%.0f`, `%+d`, ...) are modelled
  by `fmtNum` below; no claim depends on digit-level formatting.
* Fallible Go functions returning `error` are modelled with `Except String`.
-/

/-- Rendering of a numeric `fmt.Sprintf` verb (`%.0f`, `%.2f`, `%+.2f`, ...).
The pipeline's claims never depend on the decimal digits produced, only on
which value is interpolated, so the exact rational is rendered directly.
Numeric renderings consist of digits, sign, and separator characters — all
ASCII; the filter makes this alphabet bound manifest to the logic (it
removes nothing, since `toString` on `ℚ` emits only digits, `-` and `/`). -/
def fmtNum (q : ℚ) : String := ⟨(toString q).data.filter (fun c => c.toNat < 128)⟩

/-- `TradingDecision` (ai_decision_engine.go:708-718): one atomic instruction
decoded from the AI's JSON array. -/
structure TradingDecision where
  symbol : String
  action : String
  leverage : Int
  positionSizeUSD : ℚ
  stopLoss : ℚ
  takeProfit : ℚ
  confidence : Int
  riskUSD : ℚ
  reasoning : String
  deriving Repr, DecidableEq

/-- The six recognized actions (the `validActions` map of
ai_decision_engine.go:1098-1105). -/
def validActions : List String :=
  ["open_long", "open_short", "close_long", "close_short", "hold", "wait"]

/-- Whether a symbol is in the major asset class (the
`d.Symbol == "BTCUSDT" || d.Symbol == "ETHUSDT"` test of
ai_decision_engine.go:1116). -/
def isMajorSymbol (symbol : String) : Prop :=
  symbol = "BTCUSDT" ∨ symbol = "ETHUSDT"

instance (symbol : String) : Decidable (isMajorSymbol symbol) :=
  inferInstanceAs (Decidable (_ ∨ _))

/-- The per-asset-class leverage cap `maxLeverage`
(ai_decision_engine.go:1114,1117): 50 for BTC/ETH, 20 otherwise. -/
def leverageCap (symbol : String) : Int :=
  if isMajorSymbol symbol then 50 else 20

/-- The per-asset-class position-value cap `maxPositionValue`
(ai_decision_engine.go:1115,1118): 10× equity for BTC/ETH, 1.5× otherwise. -/
def maxPositionValueFor (symbol : String) (accountEquity : ℚ) : ℚ :=
  if isMajorSymbol symbol then accountEquity * 10 else accountEquity * 1.5

/-- `validateDecision` (ai_decision_engine.go:1096-1153): validate a single
decision against the per-asset-class leverage / position-size / stop-ordering
rules.  Mirrors the Go control flow check for check, including the error
strings (with `fmtNum` standing in for the numeric `fmt` verbs); the local
variables `maxLeverage`, `maxPositionValue` and `tolerance` of the source are
the helper functions above (with `tolerance = maxPositionValue * 0.01`
inlined). -/
def validateDecision (d : TradingDecision) (accountEquity : ℚ) :
    Except String Unit :=
  if ¬ validActions.contains d.action then
    .error ("无效的action: " ++ d.action)
  else if d.action = "open_long" ∨ d.action = "open_short" then
    if d.leverage ≤ 0 ∨ leverageCap d.symbol < d.leverage then
      .error ("杠杆必须在1-" ++ toString (leverageCap d.symbol) ++ "之间（" ++
        d.symbol ++ "）: " ++ toString d.leverage)
    else if d.positionSizeUSD ≤ 0 then
      .error ("仓位大小必须大于0: " ++ fmtNum d.positionSizeUSD)
    -- 验证仓位价值上限（加1%容差以避免浮点数精度问题）
    else if maxPositionValueFor d.symbol accountEquity +
        maxPositionValueFor d.symbol accountEquity * 0.01 < d.positionSizeUSD then
      .error (if isMajorSymbol d.symbol then
        "BTC/ETH单币种仓位价值不能超过" ++
          fmtNum (maxPositionValueFor d.symbol accountEquity) ++
          " USDT（10倍账户净值），实际: " ++ fmtNum d.positionSizeUSD
      else
        "山寨币单币种仓位价值不能超过" ++
          fmtNum (maxPositionValueFor d.symbol accountEquity) ++
          " USDT（1.5倍账户净值），实际: " ++ fmtNum d.positionSizeUSD)
    else if d.stopLoss ≤ 0 ∨ d.takeProfit ≤ 0 then
      .error "止损和止盈必须大于0"
    else if d.action = "open_long" then
      if d.takeProfit ≤ d.stopLoss then
        .error "做多时止损价必须小于止盈价"
      else .ok ()
    else
      if d.stopLoss ≤ d.takeProfit then
        .error "做空时止损价必须大于止盈价"
      else .ok ()
  else .ok ()

/-- Helper for `validateDecisions`: validate the decisions in order, carrying
the 0-based index `i` of the head of the remaining list (the `for i, decision
:= range decisions` loop counter). -/
def validateDecisionsFrom (accountEquity : ℚ) :
    List TradingDecision → Nat → Except String Unit
  | [], _ => .ok ()
  | d :: rest, i =>
    match validateDecision d accountEquity with
    | .error e => .error ("决策 #" ++ toString (i + 1) ++ " 验证失败: " ++ e)
    | .ok _ => validateDecisionsFrom accountEquity rest (i + 1)

/-- `validateDecisions` (ai_decision_engine.go:1063-1071): validate a batch;
the first invalid decision aborts with an error naming its 1-based position. -/
def validateDecisions (decisions : List TradingDecision) (accountEquity : ℚ) :
    Except String Unit :=
  validateDecisionsFrom accountEquity decisions 0

/-! ## Response parsing (ai_decision_engine.go:982-1093)

The byte-level scans of the source operate on ASCII characters `[`/`]`/`"`;
they are modelled on `String.data` (see the header).  `json.Unmarshal` is Go
standard-library code external to this repository, so the JSON decoder is a
parameter `decode` of the functions that call it. -/

/-- The whitespace predicate of `strings.TrimSpace` (ASCII part:
space, `\t`, `\n`, `\v`, `\f`, `\r`; the responses scanned by the claims
contain no exotic Unicode space characters). -/
def isSpaceChar (c : Char) : Bool :=
  c = ' ' || c = '\t' || c = '\n' || c = Char.ofNat 11 || c = Char.ofNat 12 ||
    c = '\r'

/-- `strings.TrimSpace` on a character list: drop whitespace from both ends. -/
def trimSpaceL (l : List Char) : List Char :=
  ((l.dropWhile isSpaceChar).reverse.dropWhile isSpaceChar).reverse

/-- Index of the first occurrence of `c`, if any. -/
def charIndex? : List Char → Char → Option Nat
  | [], _ => none
  | x :: rest, c =>
    if x = c then some 0 else (charIndex? rest c).map (· + 1)

/-- `strings.Index(s, c)` for a single-character needle: first index, or -1
when absent. -/
def strIndex (l : List Char) (c : Char) : Int :=
  match charIndex? l c with
  | some n => (n : Int)
  | none => -1

/-- The depth-tracking loop of `findMatchingBracket`
(ai_decision_engine.go:1079-1090): `i` is the absolute index of the head of
the remaining list; on `[` the depth increases, on `]` it decreases and the
index is returned when it reaches zero.  String context is *not* tracked —
exactly as in the source. -/
def bracketScan : List Char → Int → Nat → Option Nat
  | [], _, _ => none
  | c :: rest, depth, i =>
    if c = '[' then bracketScan rest (depth + 1) (i + 1)
    else if c = ']' then
      if depth - 1 = 0 then some i else bracketScan rest (depth - 1) (i + 1)
    else bracketScan rest depth (i + 1)

/-- `findMatchingBracket` (ai_decision_engine.go:1074-1093): require the
start position to hold `[`, then scan forward; `none` models the source's
`-1`. -/
def findMatchingBracket (s : List Char) (start : Nat) : Option Nat :=
  if (s.drop start).head? = some '[' then bracketScan (s.drop start) 0 start
  else none

/-- `extractCoTTrace` (ai_decision_engine.go:1010-1021): the reasoning trace
is the trimmed text before the first `[` — but only when that `[` occurs at
a strictly positive index (`jsonStart > 0` in the source); otherwise the
whole trimmed response is returned. -/
def extractCoTTrace (response : String) : String :=
  let jsonStart : Int := strIndex response.data '['
  if 0 < jsonStart then ⟨trimSpaceL (response.data.take jsonStart.toNat)⟩
  else ⟨trimSpaceL response.data⟩

/-- The bracket-locating part of `extractDecisions`
(ai_decision_engine.go:1026-1037): find the first `[`, find its naive
matching `]`, and return the trimmed slice between them. -/
def extractJsonCandidate (response : String) : Except String String :=
  let l := response.data
  let arrayStart : Int := strIndex l '['
  if arrayStart = -1 then .error "无法找到JSON数组起始"
  else
    match findMatchingBracket l arrayStart.toNat with
    | none => .error "无法找到JSON数组结束"
    | some arrayEnd =>
      .ok ⟨trimSpaceL ((l.take (arrayEnd + 1)).drop arrayStart.toNat)⟩

/-- `fixMissingQuotes` (ai_decision_engine.go:1055-1061): replace full-width
(Chinese) quotation marks by their ASCII counterparts, character for
character. -/
def fixQuoteChar (c : Char) : Char :=
  if c = '“' then '"'
  else if c = '”' then '"'
  else if c = '‘' then '\''
  else if c = '’' then '\''
  else c

/-- `fixMissingQuotes` on whole strings (each replacement in the source maps
one character to one character, so `ReplaceAll` is a character map). -/
def fixMissingQuotes (s : String) : String := ⟨s.data.map fixQuoteChar⟩

/-- `extractDecisions` (ai_decision_engine.go:1024-1052), with the external
`json.Unmarshal` supplied as the `decode` parameter: locate the candidate
JSON, normalize quotes, decode. -/
def extractDecisions (decode : String → Except String (List TradingDecision))
    (response : String) : Except String (List TradingDecision) :=
  match extractJsonCandidate response with
  | .error e => .error e
  | .ok jsonContent =>
    let fixed := fixMissingQuotes jsonContent
    match decode fixed with
    | .error e => .error ("JSON解析失败: " ++ e ++ "\nJSON内容: " ++ fixed)
    | .ok decisions => .ok decisions

/-- `AIFullDecision` (ai_decision_engine.go:721-726); the `Timestamp` field
(wall-clock time set by the caller) is outside the embedded fragment. -/
structure AIFullDecision where
  userPrompt : String
  cotTrace : String
  decisions : List TradingDecision
  deriving Repr, DecidableEq

/-- `parseFullDecisionResponse` (ai_decision_engine.go:982-1007): the Go
function returns a `(*AIFullDecision, error)` pair whose first component is
non-nil on *every* path, so the model returns `AIFullDecision × Option
String` (`some` = the Go error). -/
def parseFullDecisionResponse
    (decode : String → Except String (List TradingDecision))
    (aiResponse : String) (accountEquity : ℚ) :
    AIFullDecision × Option String :=
  let cotTrace := extractCoTTrace aiResponse
  match extractDecisions decode aiResponse with
  | .error e =>
    (⟨"", cotTrace, []⟩,
     some ("提取决策失败: " ++ e ++ "\n\n=== AI思维链分析 ===\n" ++ cotTrace))
  | .ok decisions =>
    match validateDecisions decisions accountEquity with
    | .error e =>
      (⟨"", cotTrace, decisions⟩,
       some ("决策验证失败: " ++ e ++ "\n\n=== AI思维链分析 ===\n" ++ cotTrace))
    | .ok _ => (⟨"", cotTrace, decisions⟩, none)

/-- Modelled from the spec: the spec-side reference scanner for C3, which
"must locate the first top-level balanced `[...]` and not be confused by
brackets inside string values" (spec §8).  It tracks whether the position is
inside a JSON string literal (toggled by an unescaped `"`) and counts only
brackets outside strings.  It exists solely for the refinement comparison
with `bracketScan`; it is not part of the source. -/
def stringAwareScan : List Char → Int → Bool → Bool → Nat → Option Nat
  | [], _, _, _, _ => none
  | c :: rest, depth, inStr, esc, i =>
    if inStr then
      if esc then stringAwareScan rest depth true false (i + 1)
      else if c = '\\' then stringAwareScan rest depth true true (i + 1)
      else if c = '"' then stringAwareScan rest depth false false (i + 1)
      else stringAwareScan rest depth true false (i + 1)
    else
      if c = '"' then stringAwareScan rest depth true false (i + 1)
      else if c = '[' then stringAwareScan rest (depth + 1) false false (i + 1)
      else if c = ']' then
        if depth - 1 = 0 then some i
        else stringAwareScan rest (depth - 1) false false (i + 1)
      else stringAwareScan rest depth false false (i + 1)

/-- Modelled from the spec: the candidate the spec's words describe — from
the first `[`, the slice up to the matching `]` found by the string-aware
scan. -/
def stringAwareCandidate (response : String) : Option String :=
  let l := response.data
  match charIndex? l '[' with
  | none => none
  | some start =>
    match stringAwareScan (l.drop start) 0 false false start with
    | none => none
    | some e => some ⟨(l.take (e + 1)).drop start⟩

deriving instance DecidableEq for Except

/-! ## Context data model and market-data fetch (ai_decision_engine.go:654-836) -/

/-- Modelled from the spec: the open-interest record of a `MarketSnapshot`
("open-interest (latest vs. average)", spec §3).  The `MarketData` struct is
defined in a market-data source file absent from src/; its fields are those
consumed by the embedded functions (`OpenInterest.Latest`,
`OpenInterest.Average`). -/
structure OpenInterestData where
  latest : ℚ
  average : ℚ
  deriving Repr, DecidableEq

/-- Modelled from the spec: `MarketData` / MarketSnapshot (spec §3): current
price, EMA20, MACD, RSI(7), funding rate, 1h/4h price change, optional
open-interest.  The struct itself lives in a market-data file absent from
src/; the fields are exactly those the embedded functions read
(`CurrentPrice`, `PriceChange1h/4h`, `CurrentMACD`, `CurrentRSI7`,
`OpenInterest`, and the symbol). -/
structure MarketData where
  symbol : String
  currentPrice : ℚ
  currentEMA20 : ℚ
  currentMACD : ℚ
  currentRSI7 : ℚ
  fundingRate : ℚ
  priceChange1h : ℚ
  priceChange4h : ℚ
  openInterest : Option OpenInterestData
  deriving Repr, DecidableEq

/-- `PositionInfo` (ai_decision_engine.go:654-665). -/
structure PositionInfo where
  symbol : String
  side : String
  entryPrice : ℚ
  markPrice : ℚ
  quantity : ℚ
  leverage : Int
  unrealizedPnL : ℚ
  unrealizedPnLPct : ℚ
  liquidationPrice : ℚ
  marginUsed : ℚ
  deriving Repr, DecidableEq

/-- `AccountInfo` (ai_decision_engine.go:668-676). -/
structure AccountInfo where
  totalEquity : ℚ
  availableBalance : ℚ
  totalPnL : ℚ
  totalPnLPct : ℚ
  marginUsed : ℚ
  marginUsedPct : ℚ
  positionCount : Int
  deriving Repr, DecidableEq

/-- `CandidateCoin` (ai_decision_engine.go:679-682). -/
structure CandidateCoin where
  symbol : String
  sources : List String
  deriving Repr, DecidableEq

/-- The shape `buildUserPrompt` reads out of the untyped
`ctx.Performance interface{}` (ai_decision_engine.go:962-973): the source
marshals the value to JSON and unmarshals the `sharpe_ratio` field through
the standard library.  The untyped value is modelled as
`Option PerformanceData`: `some p` is a non-nil performance value whose
JSON round-trip (external Go stdlib, always successful on the
`logger.PerformanceAnalysis` struct the caller passes) yields
`p.sharpeRatio`. -/
structure PerformanceData where
  sharpeRatio : ℚ
  deriving Repr, DecidableEq

/-- `TradingContext` (ai_decision_engine.go:695-705).  The Go
`MarketDataMap map[string]*MarketData` is modelled as an association list
with distinct keys (lookup is all the embedded code does with it); `OITopDataMap` (best-effort enrichment from the external
`pool.GetOITopPositions` collaborator) is read by none of the embedded
functions and is omitted. -/
structure TradingContext where
  currentTime : String
  runtimeMinutes : Int
  callCount : Int
  account : AccountInfo
  positions : List PositionInfo
  candidateCoins : List CandidateCoin
  marketDataMap : List (String × MarketData)
  performance : Option PerformanceData
  deriving Repr, DecidableEq

/-- `calculateMaxCandidates` (ai_decision_engine.go:831-836): all of them. -/
def calculateMaxCandidates (ctx : TradingContext) : Nat :=
  ctx.candidateCoins.length

/-- The symbol set assembled by `fetchMarketDataForContext`
(ai_decision_engine.go:762-776): position symbols plus the first
`calculateMaxCandidates` candidate symbols (Go builds a `map[string]bool`;
only membership matters). -/
def fetchSymbolSet (ctx : TradingContext) : List String :=
  ctx.positions.map (·.symbol) ++
    (ctx.candidateCoins.take (calculateMaxCandidates ctx)).map (·.symbol)

/-- Membership of a symbol among the held positions (the `positionSymbols`
set of ai_decision_engine.go:780-783). -/
def isPositionSymbol (ctx : TradingContext) (symbol : String) : Prop :=
  symbol ∈ ctx.positions.map (·.symbol)

instance (ctx : TradingContext) (symbol : String) :
    Decidable (isPositionSymbol ctx symbol) :=
  inferInstanceAs (Decidable (_ ∈ _))

/-- The per-symbol content of `ctx.MarketDataMap` after
`fetchMarketDataForContext` (ai_decision_engine.go:785-808), with the
external market-data source `GetMarketData` supplied as `fetch`.  Go
iterates the symbol set in unspecified map order, but each distinct symbol
is inserted at most once with a value depending only on that symbol, so the
resulting map is fully described by this per-symbol lookup: `none` models
"absent from the map" (fetch failure, or candidate discarded by the
liquidity filter), `some data` models presence. -/
def marketDataMapAfterFetch (ctx : TradingContext)
    (fetch : String → Except String MarketData) (symbol : String) :
    Option MarketData :=
  if symbol ∈ fetchSymbolSet ctx then
    match fetch symbol with
    | .error _ => none
    | .ok data =>
      -- ⚠️ 流动性过滤：持仓价值低于15M USD的币种不做（多空都不做）
      -- 但现有持仓必须保留（需要决策是否平仓）
      match data.openInterest with
      | some oi =>
        if ¬ isPositionSymbol ctx symbol ∧ 0 < data.currentPrice ∧
            oi.latest * data.currentPrice / 1000000 < 15 then none
        else some data
      | none => some data
  else none

/-! ## Adaptive behaviour recommendation (ai_decision_engine.go:1176-1254) -/

/-- The numeric risk posture of each Sharpe band, read off the branches of
`getAdaptiveBehaviorRecommendation`: per-position size as a multiple of
equity for altcoins and for BTC/ETH (the `accountEquity*…` arguments of the
仓位规模 line), the magnitude of the recommended stop-loss percentage (the
-1% / -1.5% / -2% figures; a smaller magnitude is a *tighter* stop), the
minimum confidence, and the concurrent-position cap. -/
structure RiskPosture where
  altSizeMult : ℚ
  majorSizeMult : ℚ
  stopLossPct : ℚ
  minConfidence : ℚ
  maxPositions : Nat
  deriving Repr, DecidableEq

/-- The band selection of `getAdaptiveBehaviorRecommendation`
(ai_decision_engine.go:1181,1196,1207,1222 and the final else), with each
band's numeric figures. -/
def adaptivePosture (sharpe : ℚ) : RiskPosture :=
  if sharpe < -0.5 then ⟨0.6, 2.5, 1, 95, 1⟩
  else if sharpe < 0 then ⟨0.8, 3.5, 1.5, 80, 2⟩
  else if sharpe < 0.7 then ⟨0.8, 3.5, 1.5, 80, 2⟩
  else if sharpe < 1.0 then ⟨1.2, 5, 2, 75, 3⟩
  else ⟨1.5, 6, 2, 75, 3⟩

/-- `getAdaptiveBehaviorRecommendation` (ai_decision_engine.go:1176-1254):
the full recommendation text, branch for branch. -/
def getAdaptiveBehaviorRecommendation (sharpe accountEquity : ℚ) : String :=
  "### 🎯 自适应行为建议（基于夏普比率）\n\n" ++
  (if sharpe < -0.5 then
    "**⚠️ 警告：当前策略产生负收益，立即调整！**\n\n" ++
    "**策略调整**：\n" ++
    "- 仓位规模：**减半**（山寨币: " ++ fmtNum (accountEquity * 0.6) ++
      " USDT, BTC/ETH: " ++ fmtNum (accountEquity * 2.5) ++ " USDT）\n" ++
    "- 止损幅度：**收紧至-1%**（快速止损，保护本金）\n" ++
    "- 选币标准：**只做最高确定性**（信心度≥95%，风险回报比≥1:3）\n" ++
    "- 持仓数量：**最多1个**（极度精选）\n" ++
    "- 决策频率：**减少交易**（宁可不做，也不要乱做）\n\n" ++
    "**反思要点**：\n" ++
    "- 为什么之前的交易亏损？是选币问题还是时机问题？\n" ++
    "- 是否追涨杀跌？是否逆势交易？\n" ++
    "- 止损是否执行到位？\n\n"
  else if sharpe < 0 then
    "**状态：轻微亏损，需要优化策略**\n\n" ++
    "**策略调整**：\n" ++
    "- 仓位规模：**保守**（山寨币: " ++ fmtNum (accountEquity * 0.8) ++
      " USDT, BTC/ETH: " ++ fmtNum (accountEquity * 3.5) ++ " USDT）\n" ++
    "- 止损幅度：**收紧至-1.5%**\n" ++
    "- 选币标准：**提高阈值**（信心度≥80%，风险回报比≥1:2.5）\n" ++
    "- 持仓数量：**最多2个**\n" ++
    "- 重点改进：**找出亏损原因**，调整选币或时机\n\n"
  else if sharpe < 0.7 then
    "**状态：正收益但风险较高，需要优化**\n\n" ++
    "**策略调整**：\n" ++
    "- 仓位规模：**保守**（山寨币: " ++ fmtNum (accountEquity * 0.8) ++
      " USDT, BTC/ETH: " ++ fmtNum (accountEquity * 3.5) ++ " USDT）\n" ++
    "- 止损幅度：**收紧至-1.5%**\n" ++
    "- 选币标准：**提高阈值**（信心度≥80%，风险回报比≥1:2.5）\n" ++
    "- 持仓数量：**最多2个**\n" ++
    "- 重点改进：**减少亏损幅度**，提高止损执行力\n\n" ++
    "**优化方向**：\n" ++
    "- 避免冲动交易，等待更好的入场时机\n" ++
    "- 减少交易频率，提高单笔交易质量\n" ++
    "- 盈利时及时止盈，不要贪多\n\n"
  else if sharpe < 1.0 then
    "**状态：表现良好，继续保持当前策略**\n\n" ++
    "**策略调整**：\n" ++
    "- 仓位规模：**标准**（山寨币: " ++ fmtNum (accountEquity * 1.2) ++
      " USDT, BTC/ETH: " ++ fmtNum (accountEquity * 5) ++ " USDT）\n" ++
    "- 止损幅度：**-2%**（标准设置）\n" ++
    "- 选币标准：**正常**（信心度≥75%，风险回报比≥1:2）\n" ++
    "- 持仓数量：**最多3个**\n" ++
    "- 保持纪律：**严格执行止损止盈**\n\n" ++
    "**持续改进**：\n" ++
    "- 总结盈利交易的共性特征，复制成功模式\n" ++
    "- 分析亏损交易，避免重复错误\n" ++
    "- 保持冷静客观，不要因为短期盈利而冒进\n\n"
  else
    "**状态：卓越表现，策略非常有效！**\n\n" ++
    "**策略调整**：\n" ++
    "- 仓位规模：**可适度放大**（山寨币: " ++ fmtNum (accountEquity * 1.5) ++
      " USDT, BTC/ETH: " ++ fmtNum (accountEquity * 6) ++ " USDT）\n" ++
    "- 止损幅度：**-2%**（保持纪律，不要因为盈利而放松）\n" ++
    "- 选币标准：**正常**（信心度≥75%）\n" ++
    "- 持仓数量：**最多3个**\n" ++
    "- **核心原则：保持纪律，不要过度自信**\n\n" ++
    "**风险提示**：\n" ++
    "- 即使表现优异，也要保持风险管理纪律\n" ++
    "- 市场环境会变化，不要因短期成功而冒进\n" ++
    "- 继续严格执行止损，保护已有收益\n\n")

/-! ## User prompt construction (ai_decision_engine.go:895-979) -/

/-- Modelled from the spec: `FormatMarketData` renders a MarketSnapshot's
technical state (spec §3) as prompt text; it is defined in a market-data
source file absent from src/.  Its exact text is immaterial to every claim;
it is modelled as a rendering of the snapshot fields. -/
def FormatMarketData (data : MarketData) : String :=
  "【" ++ data.symbol ++ "】\n" ++
  "• 当前价格: " ++ fmtNum data.currentPrice ++ " USDT\n" ++
  "• EMA20: " ++ fmtNum data.currentEMA20 ++ "\n" ++
  "• MACD: " ++ fmtNum data.currentMACD ++ "\n" ++
  "• RSI(7): " ++ fmtNum data.currentRSI7 ++ "\n" ++
  "• 资金费率: " ++ fmtNum data.fundingRate ++ "\n" ++
  "• 1h变化: " ++ fmtNum data.priceChange1h ++ "% | 4h变化: " ++
    fmtNum data.priceChange4h ++ "%\n" ++
  (match data.openInterest with
   | some oi =>
     "• 持仓量: " ++ fmtNum oi.latest ++ " (均值 " ++ fmtNum oi.average ++ ")\n"
   | none => "")

/-- The system-status header of `buildUserPrompt`
(ai_decision_engine.go:899-900). -/
def promptHeader (ctx : TradingContext) : String :=
  "**时间**: " ++ ctx.currentTime ++ " | **周期**: #" ++
    toString ctx.callCount ++ " | **运行**: " ++ toString ctx.runtimeMinutes ++
    "分钟\n\n"

/-- The BTC market block of `buildUserPrompt`
(ai_decision_engine.go:903-907); absent when BTCUSDT has no market data. -/
def promptBTC (ctx : TradingContext) : String :=
  match ctx.marketDataMap.lookup "BTCUSDT" with
  | some btcData =>
    "**BTC**: " ++ fmtNum btcData.currentPrice ++ " (1h: " ++
      fmtNum btcData.priceChange1h ++ "%, 4h: " ++
      fmtNum btcData.priceChange4h ++ "%) | MACD: " ++
      fmtNum btcData.currentMACD ++ " | RSI: " ++
      fmtNum btcData.currentRSI7 ++ "\n\n"
  | none => ""

/-- The account block of `buildUserPrompt` (ai_decision_engine.go:910-916). -/
def promptAccount (ctx : TradingContext) : String :=
  "**账户**: 净值" ++ fmtNum ctx.account.totalEquity ++ " | 余额" ++
    fmtNum ctx.account.availableBalance ++ " (" ++
    fmtNum (ctx.account.availableBalance / ctx.account.totalEquity * 100) ++
    "%) | 盈亏" ++ fmtNum ctx.account.totalPnLPct ++ "% | 保证金" ++
    fmtNum ctx.account.marginUsedPct ++ "% | 持仓" ++
    toString ctx.account.positionCount ++ "个\n\n"

/-- One numbered position line plus its market data
(ai_decision_engine.go:921-931); `i` is the 0-based loop index. -/
def positionBlock (ctx : TradingContext) (i : Nat) (pos : PositionInfo) :
    String :=
  toString (i + 1) ++ ". " ++ pos.symbol ++ " " ++ pos.side.toUpper ++
    " | 入场价" ++ fmtNum pos.entryPrice ++ " 当前价" ++ fmtNum pos.markPrice ++
    " | 盈亏" ++ fmtNum pos.unrealizedPnLPct ++ "% | 杠杆" ++
    toString pos.leverage ++ "x | 保证金" ++ fmtNum pos.marginUsed ++
    " | 强平价" ++ fmtNum pos.liquidationPrice ++ "\n\n" ++
  (match ctx.marketDataMap.lookup pos.symbol with
   | some md => FormatMarketData md ++ "\n"
   | none => "")

/-- The positions section of `buildUserPrompt`
(ai_decision_engine.go:919-935): one block per position, or the explicit
"no positions" line. -/
def promptPositions (ctx : TradingContext) : String :=
  if 0 < ctx.positions.length then
    "## 当前持仓\n" ++
      String.join (ctx.positions.enum.map fun p => positionBlock ctx p.1 p.2)
  else "**当前持仓**: 无\n\n"

/-- The source-provenance tag of a candidate
(ai_decision_engine.go:947-952). -/
def sourceTags (coin : CandidateCoin) : String :=
  if 1 < coin.sources.length then " (AI500+OI_Top双重信号)"
  else if coin.sources.length = 1 ∧ coin.sources.head? = some "oi_top" then
    " (OI_Top持仓增长)"
  else ""

/-- One candidate block (ai_decision_engine.go:955-957); `i` is the 0-based
displayed index (`displayedCount - 1`). -/
def candidateBlock (i : Nat) (coin : CandidateCoin) (md : MarketData) :
    String :=
  "### " ++ toString (i + 1) ++ ". " ++ coin.symbol ++ sourceTags coin ++
    "\n\n" ++ FormatMarketData md ++ "\n"

/-- The candidates section of `buildUserPrompt`
(ai_decision_engine.go:938-959).  The Go loop skips candidates without
market data and numbers only the displayed ones (`displayedCount`); that is
the `filterMap` + `enum` below.  `len(ctx.MarketDataMap)` is the length of
the association list (keys are distinct). -/
def promptCandidates (ctx : TradingContext) : String :=
  "## 候选币种 (" ++ toString ctx.marketDataMap.length ++ "个)\n\n" ++
  String.join
    ((ctx.candidateCoins.filterMap fun coin =>
        (ctx.marketDataMap.lookup coin.symbol).map fun md => (coin, md)).enum.map
      fun p => candidateBlock p.1 p.2.1 p.2.2) ++
  "\n"

/-- The Sharpe-ratio block of `buildUserPrompt`
(ai_decision_engine.go:961-973): written exactly when performance data is
present. -/
def promptPerformance (ctx : TradingContext) : String :=
  match ctx.performance with
  | some p => "## 📊 夏普比率: " ++ fmtNum p.sharpeRatio ++ "\n\n"
  | none => ""

/-- `buildUserPrompt` (ai_decision_engine.go:895-979): the successive
`WriteString` calls, in order. -/
def buildUserPrompt (ctx : TradingContext) : String :=
  promptHeader ctx ++ promptBTC ctx ++ promptAccount ctx ++
    promptPositions ctx ++ promptCandidates ctx ++ promptPerformance ctx ++
    "---\n\n现在请分析并输出决策（思维链 + JSON）\n"

/-- `sub` occurs contiguously inside `s`. -/
def StrContains (s sub : String) : Prop := sub.data <:+: s.data

/-! ## Batch validation: first-invalid behaviour -/

/-- Helper for the batch-validation theorems: if every decision in `pre` is
valid and `d` is invalid with message `e`, the indexed loop starting at
counter `k` fails with the message naming position `k + pre.length + 1`,
for any tail `post` (which is never examined). -/
theorem validateDecisionsFrom_first_invalid (equity : ℚ) (d : TradingDecision)
    (e : String) (hd : validateDecision d equity = .error e)
    (post : List TradingDecision) :
    ∀ (pre : List TradingDecision) (k : Nat),
      (∀ x ∈ pre, validateDecision x equity = .ok ()) →
      validateDecisionsFrom equity (pre ++ d :: post) k =
        .error ("决策 #" ++ toString (k + pre.length + 1) ++ " 验证失败: " ++ e) := by
  intro pre
  induction pre with
  | nil =>
    intro k _
    simp only [List.nil_append, validateDecisionsFrom, hd, List.length_nil,
      Nat.add_zero]
  | cons x xs ih =>
    intro k hpre
    have hx : validateDecision x equity = .ok () := hpre x (List.mem_cons_self x xs)
    simp only [List.cons_append, validateDecisionsFrom, hx]
    have h2 := ih (k + 1) (fun y hy => hpre y (List.mem_cons_of_mem x hy))
    have harith : k + 1 + xs.length + 1 = k + (x :: xs).length + 1 := by
      simp [List.length_cons]; omega
    rw [harith] at h2
    exact h2

/-- Characterization of `validateDecision` on opening decisions, shared by
the claim theorems below: acceptance is equivalent to the leverage window,
the size window (with the 1% tolerance folded into `× 1.01`), positivity of
stop-loss/take-profit, and the action-dependent stop/take ordering. -/
theorem validateDecision_open_ok_iff
    (d : TradingDecision) (equity : ℚ)
    (ha : d.action = "open_long" ∨ d.action = "open_short") :
    validateDecision d equity = .ok () ↔
      ((1 ≤ d.leverage ∧ d.leverage ≤ leverageCap d.symbol) ∧
       (0 < d.positionSizeUSD ∧
         d.positionSizeUSD ≤ maxPositionValueFor d.symbol equity * 1.01) ∧
       (0 < d.stopLoss ∧ 0 < d.takeProfit) ∧
       (if d.action = "open_long" then d.stopLoss < d.takeProfit
        else d.takeProfit < d.stopLoss)) := by
  have htol : ∀ x : ℚ, x + x * (1 / 100) = x * (101 / 100) := by
    intro x; ring
  have hne : ¬ (("open_short" : String) = "open_long") := by decide
  unfold validateDecision
  rcases ha with h | h
  · rw [h]; norm_num [validActions]
    rw [htol (maxPositionValueFor d.symbol equity)]
    split_ifs with h1 h2 h3 h4 h5 <;>
      (try push_neg at *) <;>
      simp only [reduceCtorEq, false_iff, true_iff, not_and, not_lt, not_le] <;>
      first
        | (rintro ⟨hl, hlc⟩ ⟨hs1, hs2⟩ ⟨hsl, htp⟩;
           first
             | exact h5
             | (exfalso;
                first
                  | omega
                  | linarith
                  | (rcases h4 with h4 | h4 <;> linarith)))
        | exact ⟨⟨by omega, h1.2⟩, ⟨h2, h3⟩, h4, h5⟩
  · rw [h]; norm_num [validActions]
    rw [if_neg hne, if_neg hne, htol (maxPositionValueFor d.symbol equity)]
    split_ifs with h1 h2 h3 h4 h5 <;>
      (try push_neg at *) <;>
      simp only [reduceCtorEq, false_iff, true_iff, not_and, not_lt, not_le] <;>
      first
        | (rintro ⟨hl, hlc⟩ ⟨hs1, hs2⟩ ⟨hsl, htp⟩;
           first
             | exact h5
             | (exfalso;
                first
                  | omega
                  | linarith
                  | (rcases h4 with h4 | h4 <;> linarith)))
        | exact ⟨⟨by omega, h1.2⟩, ⟨h2, h3⟩, h4, h5⟩

/-- C1: for every decision whose action is `open_long` or `open_short` and
every positive account equity, `validateDecision` accepts the decision iff
leverage lies in `[1, cap]`, the position size is strictly positive and at
most `cap-multiple × equity × 1.01`, both stop-loss and take-profit are
strictly positive, and stop-loss < take-profit for `open_long`
(resp. stop-loss > take-profit for `open_short`), where the caps are
(50, 10×) for BTCUSDT/ETHUSDT and (20, 1.5×) for every other symbol. -/
theorem validateDecision_open_accepts_iff
    (d : TradingDecision) (equity : ℚ) (heq : 0 < equity)
    (ha : d.action = "open_long" ∨ d.action = "open_short") :
    validateDecision d equity = .ok () ↔
      ((1 ≤ d.leverage ∧ d.leverage ≤ leverageCap d.symbol) ∧
       (0 < d.positionSizeUSD ∧
         d.positionSizeUSD ≤ maxPositionValueFor d.symbol equity * 1.01) ∧
       (0 < d.stopLoss ∧ 0 < d.takeProfit) ∧
       (if d.action = "open_long" then d.stopLoss < d.takeProfit
        else d.takeProfit < d.stopLoss)) :=
  validateDecision_open_ok_iff d equity ha

/-- C1 witness: an altcoin `open_long` at leverage exactly 20 and position
size exactly `1.5 × 100 × 1.01 = 151.5` is accepted for equity 100. -/
theorem validateDecision_open_accepts_iff_witness :
    validateDecision ⟨"SOLUSDT", "open_long", 20, 151.5, 1, 2, 80, 10, ""⟩
      100 = .ok () :=
  (validateDecision_open_accepts_iff
    ⟨"SOLUSDT", "open_long", 20, 151.5, 1, 2, 80, 10, ""⟩ 100
    (by norm_num) (Or.inl rfl)).mpr
    (by
      have hmaj : ¬ (("SOLUSDT" : String) = "BTCUSDT" ∨
          ("SOLUSDT" : String) = "ETHUSDT") := by decide
      norm_num [leverageCap, maxPositionValueFor, isMajorSymbol, if_neg hmaj])

/-- C2: if every decision in `pre` is valid and `d` is invalid with message
`e`, then for every tail `post` the batch `pre ++ d :: post` fails
validation with an error naming `d`'s 1-based position `pre.length + 1`;
since the result does not depend on `post`, the decisions after the first
invalid one are never examined and no partially-validated batch is
produced. -/
theorem validateDecisions_first_invalid
    (pre : List TradingDecision) (d : TradingDecision) (equity : ℚ) (e : String)
    (hpre : ∀ x ∈ pre, validateDecision x equity = .ok ())
    (hd : validateDecision d equity = .error e) :
    ∀ post : List TradingDecision,
      validateDecisions (pre ++ d :: post) equity =
        .error ("决策 #" ++ toString (pre.length + 1) ++ " 验证失败: " ++ e) := by
  intro post
  have h := validateDecisionsFrom_first_invalid equity d e hd post pre 0 hpre
  simpa [validateDecisions] using h

/-- C2 witness: in a batch of three decisions where only the second one is
invalid (altcoin leverage 21 > 20), validation fails with a message naming
position `#2`. -/
theorem validateDecisions_first_invalid_witness :
    validateDecisions
      [⟨"SOLUSDT", "hold", 0, 0, 0, 0, 0, 0, ""⟩,
       ⟨"SOLUSDT", "open_long", 21, 100, 1, 2, 80, 10, ""⟩,
       ⟨"SOLUSDT", "wait", 0, 0, 0, 0, 0, 0, ""⟩] 100 =
      .error "决策 #2 验证失败: 杠杆必须在1-20之间（SOLUSDT）: 21" := by
  have h := validateDecisions_first_invalid
    [⟨"SOLUSDT", "hold", 0, 0, 0, 0, 0, 0, ""⟩]
    ⟨"SOLUSDT", "open_long", 21, 100, 1, 2, 80, 10, ""⟩ 100
    "杠杆必须在1-20之间（SOLUSDT）: 21"
    (by intro x hx; simp at hx; subst hx; rfl)
    rfl
    [⟨"SOLUSDT", "wait", 0, 0, 0, 0, 0, 0, ""⟩]
  exact h

/-- C5 (amended): a decision accepted by `validateDecision` with an `open_*`
action carries valid leverage (≥1), position size, stop-loss and take-profit;
`close_long`/`close_short`/`hold`/`wait` decisions are accepted with every
numeric field left at its zero value.  (The confidence field is *not*
checked by the validator — see the counterexample.) -/
theorem validateDecision_enforces_open_fields :
    (∀ (d : TradingDecision) (equity : ℚ),
        validateDecision d equity = .ok () →
        d.action = "open_long" ∨ d.action = "open_short" →
        1 ≤ d.leverage ∧ 0 < d.positionSizeUSD ∧
          0 < d.stopLoss ∧ 0 < d.takeProfit) ∧
    (∀ (symbol reasoning action : String) (equity : ℚ),
        action ∈ (["close_long", "close_short", "hold", "wait"] : List String) →
        validateDecision ⟨symbol, action, 0, 0, 0, 0, 0, 0, reasoning⟩ equity =
          .ok ()) := by
  constructor
  · intro d equity hok ha
    have h := (validateDecision_open_ok_iff d equity ha).mp hok
    exact ⟨h.1.1, h.2.1.1, h.2.2.1.1, h.2.2.1.2⟩
  · intro symbol reasoning action equity hmem
    simp only [List.mem_cons, List.mem_singleton, List.not_mem_nil, or_false] at hmem
    rcases hmem with rfl | rfl | rfl | rfl <;> rfl

theorem validateDecision_confidence_not_checked :
    validateDecision ⟨"SOLUSDT", "open_long", 20, 100, 1, 2, 500, 10, ""⟩
      100 = .ok () ∧
    ¬ ((⟨"SOLUSDT", "open_long", 20, 100, 1, 2, 500, 10, ""⟩ :
        TradingDecision).confidence ≤ 100) := by
  constructor
  · exact (validateDecision_open_ok_iff _ 100 (Or.inl rfl)).mpr
      (by
        have hmaj : ¬ (("SOLUSDT" : String) = "BTCUSDT" ∨
            ("SOLUSDT" : String) = "ETHUSDT") := by decide
        norm_num [leverageCap, maxPositionValueFor, isMajorSymbol, if_neg hmaj])
  · decide

theorem validateDecision_enforces_open_fields_witness :
    (1 ≤ (⟨"DOGEUSDT", "open_short", 5, 50, 3, 1, 70, 5, ""⟩ :
        TradingDecision).leverage ∧
      0 < (⟨"DOGEUSDT", "open_short", 5, 50, 3, 1, 70, 5, ""⟩ :
        TradingDecision).positionSizeUSD ∧
      0 < (⟨"DOGEUSDT", "open_short", 5, 50, 3, 1, 70, 5, ""⟩ :
        TradingDecision).stopLoss ∧
      0 < (⟨"DOGEUSDT", "open_short", 5, 50, 3, 1, 70, 5, ""⟩ :
        TradingDecision).takeProfit) ∧
    validateDecision ⟨"XRPUSDT", "close_short", 0, 0, 0, 0, 0, 0, ""⟩ 100 =
      .ok () := by
  constructor
  · exact validateDecision_enforces_open_fields.1
      ⟨"DOGEUSDT", "open_short", 5, 50, 3, 1, 70, 5, ""⟩ 200
      ((validateDecision_open_ok_iff _ 200 (Or.inr rfl)).mpr
        (by
          have hmaj : ¬ (("DOGEUSDT" : String) = "BTCUSDT" ∨
              ("DOGEUSDT" : String) = "ETHUSDT") := by decide
          have hne : ¬ (("open_short" : String) = "open_long") := by decide
          norm_num [leverageCap, maxPositionValueFor, isMajorSymbol,
            if_neg hmaj, if_neg hne]))
      (Or.inr rfl)
  · exact validateDecision_enforces_open_fields.2 "XRPUSDT" "" "close_short"
      100 (by simp)
/-- Auxiliary: `getLast?` ignores a cons onto a non-empty list. -/
theorem getLast?_cons_ne_nil {α : Type} (a : α) {l : List α} (h : l ≠ []) :
    (a :: l).getLast? = l.getLast? := by
  rw [← List.head?_reverse, ← List.head?_reverse, List.reverse_cons]
  cases hr : l.reverse with
  | nil => exact absurd (List.reverse_eq_nil_iff.mp hr) h
  | cons b t => simp

/-- `charIndex?` soundness: a found index splits the list at the first
occurrence. -/
theorem charIndex?_decomp :
    ∀ (l : List Char) (c : Char) (k : Nat), charIndex? l c = some k →
      ∃ pre rest : List Char, l = pre ++ c :: rest ∧ pre.length = k ∧ c ∉ pre := by
  intro l
  induction l with
  | nil => intro c k h; simp [charIndex?] at h
  | cons x t ih =>
    intro c k h
    by_cases hx : x = c
    · subst hx
      simp [charIndex?] at h
      exact ⟨[], t, by simp, by simp [← h], by simp⟩
    · simp only [charIndex?, if_neg hx, Option.map_eq_some'] at h
      obtain ⟨k', hk', hkk⟩ := h
      obtain ⟨pre, rest, hl, hlen, hmem⟩ := ih c k' hk'
      refine ⟨x :: pre, rest, by simp [hl], by simp [hlen, ← hkk], ?_⟩
      simp only [List.mem_cons, not_or]
      exact ⟨fun hcx => hx hcx.symm, hmem⟩

/-- Soundness of the naive bracket scan: a successful scan yields an index
inside the list; the scan is determined by (and closes exactly at) the
prefix ending there, whose last character is `]`. -/
theorem bracketScan_sound :
    ∀ (m : List Char) (d : Int) (i j : Nat),
      bracketScan m d i = some j →
      i ≤ j ∧ j - i < m.length ∧
      (∀ ext, bracketScan (m.take (j - i + 1) ++ ext) d i = some j) ∧
      (m.take (j - i + 1)).getLast? = some ']' := by
  intro m
  induction m with
  | nil => intro d i j h; simp [bracketScan] at h
  | cons c rest ih =>
    intro d i j h
    by_cases hc : c = '['
    · subst hc
      have h' : bracketScan rest (d + 1) (i + 1) = some j := by
        simpa [bracketScan] using h
      obtain ⟨h1, h2, h3, h4⟩ := ih (d + 1) (i + 1) j h'
      have hdiff : j - i = (j - (i + 1)) + 1 := by omega
      have hne : rest.take ((j - (i + 1)) + 1) ≠ [] := by
        intro hnil
        have := congrArg List.length hnil
        rw [List.length_take, List.length_nil] at this
        omega
      refine ⟨by omega, by simp [List.length_cons]; omega, ?_, ?_⟩
      · intro ext
        rw [hdiff, List.take_succ_cons, List.cons_append]
        simpa [bracketScan] using h3 ext
      · rw [hdiff, List.take_succ_cons, getLast?_cons_ne_nil _ hne]
        exact h4
    · by_cases hcr : c = ']'
      · subst hcr
        by_cases hd : d - 1 = 0
        · have hj : i = j := by
            have := h
            simp [bracketScan, hd] at this
            exact this
          subst hj
          refine ⟨le_refl i, by simp, ?_, ?_⟩
          · intro ext
            simp [bracketScan, hd]
          · simp
        · have h' : bracketScan rest (d - 1) (i + 1) = some j := by
            simpa [bracketScan, hd] using h
          obtain ⟨h1, h2, h3, h4⟩ := ih (d - 1) (i + 1) j h'
          have hdiff : j - i = (j - (i + 1)) + 1 := by omega
          have hne : rest.take ((j - (i + 1)) + 1) ≠ [] := by
            intro hnil
            have := congrArg List.length hnil
            rw [List.length_take, List.length_nil] at this
            omega
          refine ⟨by omega, by simp [List.length_cons]; omega, ?_, ?_⟩
          · intro ext
            rw [hdiff, List.take_succ_cons, List.cons_append]
            simpa [bracketScan, hd] using h3 ext
          · rw [hdiff, List.take_succ_cons, getLast?_cons_ne_nil _ hne]
            exact h4
      · have h' : bracketScan rest d (i + 1) = some j := by
          simpa [bracketScan, hc, hcr] using h
        obtain ⟨h1, h2, h3, h4⟩ := ih d (i + 1) j h'
        have hdiff : j - i = (j - (i + 1)) + 1 := by omega
        have hne : rest.take ((j - (i + 1)) + 1) ≠ [] := by
          intro hnil
          have := congrArg List.length hnil
          rw [List.length_take, List.length_nil] at this
          omega
        refine ⟨by omega, by simp [List.length_cons]; omega, ?_, ?_⟩
        · intro ext
          rw [hdiff, List.take_succ_cons, List.cons_append]
          simpa [bracketScan, hc, hcr] using h3 ext
        · rw [hdiff, List.take_succ_cons, getLast?_cons_ne_nil _ hne]
          exact h4

/-- The absolute-index accumulator of `bracketScan` only shifts the result. -/
theorem bracketScan_shift :
    ∀ (m : List Char) (d : Int) (i j : Nat), bracketScan m d i = some j →
      ∀ i' : Nat, bracketScan m d i' = some (i' + (j - i)) := by
  intro m
  induction m with
  | nil => intro d i j h; simp [bracketScan] at h
  | cons c rest ih =>
    intro d i j h i'
    by_cases hc : c = '['
    · subst hc
      have h' : bracketScan rest (d + 1) (i + 1) = some j := by
        simpa [bracketScan] using h
      have hij := (bracketScan_sound rest (d + 1) (i + 1) j h').1
      have := ih (d + 1) (i + 1) j h' (i' + 1)
      have harith : i' + 1 + (j - (i + 1)) = i' + (j - i) := by omega
      rw [harith] at this
      simpa [bracketScan] using this
    · by_cases hcr : c = ']'
      · subst hcr
        by_cases hd : d - 1 = 0
        · have hj : i = j := by
            have h2 := h
            simp [bracketScan, hd] at h2
            exact h2
          subst hj
          simp [bracketScan, hd]
        · have h' : bracketScan rest (d - 1) (i + 1) = some j := by
            simpa [bracketScan, hd] using h
          have hij := (bracketScan_sound rest (d - 1) (i + 1) j h').1
          have := ih (d - 1) (i + 1) j h' (i' + 1)
          have harith : i' + 1 + (j - (i + 1)) = i' + (j - i) := by omega
          rw [harith] at this
          simpa [bracketScan, hd] using this
      · have h' : bracketScan rest d (i + 1) = some j := by
          simpa [bracketScan, hc, hcr] using h
        have hij := (bracketScan_sound rest d (i + 1) j h').1
        have := ih d (i + 1) j h' (i' + 1)
        have harith : i' + 1 + (j - (i + 1)) = i' + (j - i) := by omega
        rw [harith] at this
        simpa [bracketScan, hc, hcr] using this

/-- Trimming is the identity on a string that starts with `[` and ends with
`]`. -/
theorem trimSpaceL_eq_self (l : List Char) (h1 : l.head? = some '[')
    (h2 : l.getLast? = some ']') : trimSpaceL l = l := by
  have hdrop : ∀ (x : Char) (u : List Char), isSpaceChar x = false →
      List.dropWhile isSpaceChar (x :: u) = x :: u := by
    intro x u hx
    simp [List.dropWhile_cons, hx]
  cases l with
  | nil => simp at h1
  | cons a t =>
    have ha : a = '[' := by simpa using h1
    subst ha
    unfold trimSpaceL
    rw [hdrop '[' t (by decide)]
    cases hr : ('[' :: t).reverse with
    | nil => simp at hr
    | cons b t' =>
      have hb : b = ']' := by
        have hh := List.head?_reverse ('[' :: t)
        rw [hr] at hh
        rw [h2] at hh
        simpa using hh
      subst hb
      rw [hdrop ']' t' (by decide), ← hr, List.reverse_reverse]

/-- C3 (amended): the candidate JSON located by `extractDecisions` (via
`extractJsonCandidate`) starts at the first `[` occurring *anywhere* in the
response — including one inside the reasoning trace — and extends to the
first position where the *naive* bracket count (which ignores string
literals, so it *is* confused by `]` inside string values) returns to zero.
Formally: the candidate is a slice of the response, nothing before it
contains `[`, it starts with `[`, and scanning it (under any extension of
the input) closes exactly at its last character. -/
theorem extractJsonCandidate_shape (r s : String)
    (h : extractJsonCandidate r = .ok s) :
    ∃ pre post : List Char,
      r.data = pre ++ s.data ++ post ∧ '[' ∉ pre ∧
      s.data.head? = some '[' ∧
      ∀ ext : List Char,
        bracketScan (s.data ++ ext) 0 0 = some (s.data.length - 1) := by
  unfold extractJsonCandidate strIndex at h
  simp only [] at h
  cases hidx : charIndex? r.data '[' with
  | none => rw [hidx] at h; simp at h
  | some k =>
    rw [hidx] at h
    have hk : ¬((k : Int) = -1) := by omega
    rw [if_neg hk] at h
    obtain ⟨pre, rest, hdecomp, hlen, hnotmem⟩ := charIndex?_decomp r.data '[' k hidx
    have hdropk : r.data.drop k = '[' :: rest := by
      rw [hdecomp, ← hlen, List.drop_left]
    have htoNat : ((k : Int)).toNat = k := Int.toNat_natCast k
    rw [htoNat] at h
    unfold findMatchingBracket at h
    rw [hdropk] at h
    simp only [List.head?_cons, if_pos] at h
    cases hscan : bracketScan ('[' :: rest) 0 k with
    | none => rw [hscan] at h; simp at h
    | some e =>
      rw [hscan] at h
      simp only [Except.ok.injEq] at h
      obtain ⟨h1, h2, h3, h4⟩ := bracketScan_sound ('[' :: rest) 0 k e hscan
      have h2' : e - k < rest.length + 1 := by simpa using h2
      set c := ('[' :: rest).take (e - k + 1) with hc
      have hhead : c.head? = some '[' := by
        rw [hc, List.take_succ_cons]
        rfl
      have hslice : (r.data.take (e + 1)).drop k = c := by
        rw [hdecomp]
        have harith : e + 1 = pre.length + (e - k + 1) := by omega
        rw [harith, List.take_append, List.drop_left' hlen]
      have htrim : trimSpaceL c = c := trimSpaceL_eq_self c hhead h4
      have hs : s.data = c := by
        rw [← h, hslice, htrim]
      refine ⟨pre, ('[' :: rest).drop (e - k + 1), ?_, hnotmem, ?_, ?_⟩
      · rw [hdecomp, hs, List.append_assoc, hc, List.take_append_drop]
      · rw [hs]; exact hhead
      · intro ext
        rw [hs]
        have hstep := h3 ext
        have hshift := bracketScan_shift (c ++ ext) 0 k e hstep 0
        have hclen : c.length = e - k + 1 := by
          rw [hc, List.length_take, List.length_cons]
          omega
        rw [hclen]
        have harith2 : e - k + 1 - 1 = 0 + (e - k) := by omega
        rw [harith2]
        exact hshift

/-- C3 witness: on `"x[ab]"` the candidate is `"[ab]"`, the slice after the
bracket-free prefix `"x"`, starting with `[` and closing at its last
character. -/
theorem extractJsonCandidate_shape_witness :
    ∃ pre post : List Char,
      ("x[ab]" : String).data = pre ++ ("[ab]" : String).data ++ post ∧
      '[' ∉ pre ∧
      ("[ab]" : String).data.head? = some '[' ∧
      ∀ ext : List Char,
        bracketScan (("[ab]" : String).data ++ ext) 0 0 =
          some (("[ab]" : String).data.length - 1) :=
  extractJsonCandidate_shape "x[ab]" "[ab]" (by decide)

/-- C3 counterexample: on a response whose JSON array holds a `]` inside a
string value, the code's candidate stops at that quoted `]` (yielding an
unbalanced, truncated slice), while the spec's string-aware scan — "not
confused by brackets inside string values" — yields the whole array; so
`extractDecisions` does *not* locate the first top-level balanced `[...]`
in the spec's sense. -/
theorem extractJsonCandidate_confused_by_quoted_bracket :
    extractJsonCandidate "Reasoning.\n[\x7b\"reasoning\":\"a]b\"\x7d]" =
      .ok "[\x7b\"reasoning\":\"a]" ∧
    stringAwareCandidate "Reasoning.\n[\x7b\"reasoning\":\"a]b\"\x7d]" =
      some "[\x7b\"reasoning\":\"a]b\"\x7d]" ∧
    ("[\x7b\"reasoning\":\"a]" : String) ≠ "[\x7b\"reasoning\":\"a]b\"\x7d]" := by
  refine ⟨by decide, by decide, by decide⟩

/-- C6: evaluation at the failing input.  When the response's very first
character is `[` (`jsonStart = 0`), the `jsonStart > 0` guard of
`extractCoTTrace` sends the function down the "no JSON found" branch, so
the *whole* response — the JSON array itself — is returned as the
reasoning trace instead of the empty string that "everything strictly
before the first `[`" prescribes. -/
theorem extractCoTTrace_leading_bracket_eval :
    extractCoTTrace "[\x7b\"symbol\":\"BTCUSDT\",\"action\":\"wait\"\x7d]" =
      "[\x7b\"symbol\":\"BTCUSDT\",\"action\":\"wait\"\x7d]" ∧
    ("[\x7b\"symbol\":\"BTCUSDT\",\"action\":\"wait\"\x7d]" : String) ≠ "" := by
  refine ⟨by decide, by decide⟩

/-- C7: for every decoder, response and equity — (1) when JSON extraction or
decoding fails, `parseFullDecisionResponse` returns an error alongside a
result carrying the reasoning trace extracted from that same response and an
empty decision list; (2) when validation fails, the result carries the trace
*and* the full decoded decision list alongside the error.  The trace is never
lost on an error path. -/
theorem parseFullDecisionResponse_error_paths
    (decode : String → Except String (List TradingDecision))
    (r : String) (equity : ℚ) :
    (∀ e, extractDecisions decode r = .error e →
      parseFullDecisionResponse decode r equity =
        (⟨"", extractCoTTrace r, []⟩,
         some ("提取决策失败: " ++ e ++ "\n\n=== AI思维链分析 ===\n" ++
           extractCoTTrace r))) ∧
    (∀ ds e, extractDecisions decode r = .ok ds →
      validateDecisions ds equity = .error e →
      parseFullDecisionResponse decode r equity =
        (⟨"", extractCoTTrace r, ds⟩,
         some ("决策验证失败: " ++ e ++ "\n\n=== AI思维链分析 ===\n" ++
           extractCoTTrace r))) := by
  constructor
  · intro e he
    simp only [parseFullDecisionResponse, he]
  · intro ds e hok hval
    simp only [parseFullDecisionResponse, hok, hval]

/-- C7 witness: a decoder that always fails preserves the trace
`"trace text"` with an empty decision list; a decoder returning one
invalid-action decision fails validation and the result carries both the
trace and the decoded list. -/
theorem parseFullDecisionResponse_error_paths_witness :
    (parseFullDecisionResponse (fun _ => .error "synthetic") "trace text [1]"
        100 =
      (⟨"", "trace text", []⟩,
       some ("提取决策失败: JSON解析失败: synthetic\nJSON内容: [1]" ++
         "\n\n=== AI思维链分析 ===\ntrace text"))) ∧
    (parseFullDecisionResponse
        (fun _ => .ok [⟨"BTCUSDT", "buy", 0, 0, 0, 0, 0, 0, ""⟩])
        "think [x]" 100 =
      (⟨"", "think", [⟨"BTCUSDT", "buy", 0, 0, 0, 0, 0, 0, ""⟩]⟩,
       some ("决策验证失败: 决策 #1 验证失败: 无效的action: buy" ++
         "\n\n=== AI思维链分析 ===\nthink"))) := by
  constructor
  · have h := (parseFullDecisionResponse_error_paths
      (fun _ => .error "synthetic") "trace text [1]" 100).1
      "JSON解析失败: synthetic\nJSON内容: [1]" (by decide)
    exact h.trans (by decide)
  · have h := (parseFullDecisionResponse_error_paths
      (fun _ => .ok [⟨"BTCUSDT", "buy", 0, 0, 0, 0, 0, 0, ""⟩])
      "think [x]" 100).2
      [⟨"BTCUSDT", "buy", 0, 0, 0, 0, 0, 0, ""⟩]
      "决策 #1 验证失败: 无效的action: buy" (by decide) (by decide)
    exact h.trans (by decide)

/-- C9: across the Sharpe bands (boundaries −0.5, 0, 0.7, 1.0), for any two
Sharpe ratios `s1 < s2` and positive equity, the recommended position-size
figures (altcoin and BTC/ETH multiples of equity) at `s2` are at least those
at `s1`, and the magnitude of the recommended stop-loss percentage is
non-decreasing — i.e. the stop-loss tightness is non-increasing — as the
Sharpe ratio increases. -/
theorem adaptivePosture_monotone (s1 s2 : ℚ) (h : s1 < s2)
    (e : ℚ) (he : 0 < e) :
    e * (adaptivePosture s1).altSizeMult ≤ e * (adaptivePosture s2).altSizeMult ∧
    e * (adaptivePosture s1).majorSizeMult ≤
      e * (adaptivePosture s2).majorSizeMult ∧
    (adaptivePosture s1).stopLossPct ≤ (adaptivePosture s2).stopLossPct := by
  have halt : (adaptivePosture s1).altSizeMult ≤
      (adaptivePosture s2).altSizeMult := by
    unfold adaptivePosture
    split_ifs with ha hb hc hd hf hg hh hi <;> simp only [] <;> linarith
  have hmaj : (adaptivePosture s1).majorSizeMult ≤
      (adaptivePosture s2).majorSizeMult := by
    unfold adaptivePosture
    split_ifs with ha hb hc hd hf hg hh hi <;> simp only [] <;> linarith
  have hstop : (adaptivePosture s1).stopLossPct ≤
      (adaptivePosture s2).stopLossPct := by
    unfold adaptivePosture
    split_ifs with ha hb hc hd hf hg hh hi <;> simp only [] <;> linarith
  exact ⟨mul_le_mul_of_nonneg_left halt he.le,
    mul_le_mul_of_nonneg_left hmaj he.le, hstop⟩

/-- C9 witness: from the worst band (Sharpe −1) to the best (Sharpe 2) at
equity 100: sizes do not decrease and the stop-loss magnitude does not
decrease. -/
theorem adaptivePosture_monotone_witness :
    (100 : ℚ) * (adaptivePosture (-1)).altSizeMult ≤
      100 * (adaptivePosture 2).altSizeMult ∧
    (100 : ℚ) * (adaptivePosture (-1)).majorSizeMult ≤
      100 * (adaptivePosture 2).majorSizeMult ∧
    (adaptivePosture (-1)).stopLossPct ≤ (adaptivePosture 2).stopLossPct :=
  adaptivePosture_monotone (-1) 2 (by norm_num) 100 (by norm_num)

/-- C8: in `fetchMarketDataForContext`, a candidate symbol that is not a
held position, whose fetched snapshot has open-interest data and a positive
current price with open-interest value `latest × price` below 15,000,000
USD, is excluded from MarketDataMap; a held-position symbol whose fetch
succeeds is included regardless of its open-interest value (the liquidity
filter is never applied to existing positions). -/
theorem fetch_liquidity_filter :
    (∀ (ctx : TradingContext) (fetch : String → Except String MarketData)
        (symbol : String) (data : MarketData) (oi : OpenInterestData),
      symbol ∈ ctx.candidateCoins.map (·.symbol) →
      ¬ isPositionSymbol ctx symbol →
      fetch symbol = .ok data →
      data.openInterest = some oi →
      0 < data.currentPrice →
      oi.latest * data.currentPrice < 15000000 →
      marketDataMapAfterFetch ctx fetch symbol = none) ∧
    (∀ (ctx : TradingContext) (fetch : String → Except String MarketData)
        (symbol : String) (data : MarketData),
      isPositionSymbol ctx symbol →
      fetch symbol = .ok data →
      marketDataMapAfterFetch ctx fetch symbol = some data) := by
  constructor
  · intro ctx fetch symbol data oi hcand hnpos hfetch hoi hpos hlt
    have hmem : symbol ∈ fetchSymbolSet ctx := by
      unfold fetchSymbolSet calculateMaxCandidates
      rw [List.take_length]
      exact List.mem_append_right _ hcand
    simp only [marketDataMapAfterFetch, if_pos hmem, hfetch, hoi]
    rw [if_pos]
    refine ⟨hnpos, hpos, ?_⟩
    rw [div_lt_iff₀ (by norm_num : (0:ℚ) < 1000000)]
    linarith
  · intro ctx fetch symbol data hpos hfetch
    have hmem : symbol ∈ fetchSymbolSet ctx :=
      List.mem_append_left _ hpos
    simp only [marketDataMapAfterFetch, if_pos hmem, hfetch]
    cases hoi : data.openInterest with
    | none => simp
    | some oi =>
      have hcond : ¬ (¬ isPositionSymbol ctx symbol ∧ 0 < data.currentPrice ∧
          oi.latest * data.currentPrice / 1000000 < 15) :=
        fun hx => hx.1 hpos
      simp [hcond]

/-- C8 witness: candidate ABCUSDT with OI value 2,000,000 USD < 15M is
dropped, while held position SOLUSDT with OI value 1,000 USD is kept. -/
theorem fetch_liquidity_filter_witness :
    marketDataMapAfterFetch
      ⟨"t", 0, 0, ⟨100, 100, 0, 0, 0, 0, 0⟩,
        [⟨"SOLUSDT", "long", 1, 1, 1, 1, 0, 0, 0, 0⟩],
        [⟨"ABCUSDT", ["ai500"]⟩], [], none⟩
      (fun s => if s = "ABCUSDT" then
          .ok ⟨"ABCUSDT", 2, 0, 0, 0, 0, 0, 0, some ⟨1000000, 0⟩⟩
        else .ok ⟨"SOLUSDT", 1, 0, 0, 0, 0, 0, 0, some ⟨1000, 1000⟩⟩)
      "ABCUSDT" = none ∧
    marketDataMapAfterFetch
      ⟨"t", 0, 0, ⟨100, 100, 0, 0, 0, 0, 0⟩,
        [⟨"SOLUSDT", "long", 1, 1, 1, 1, 0, 0, 0, 0⟩],
        [⟨"ABCUSDT", ["ai500"]⟩], [], none⟩
      (fun s => if s = "ABCUSDT" then
          .ok ⟨"ABCUSDT", 2, 0, 0, 0, 0, 0, 0, some ⟨1000000, 0⟩⟩
        else .ok ⟨"SOLUSDT", 1, 0, 0, 0, 0, 0, 0, some ⟨1000, 1000⟩⟩)
      "SOLUSDT" =
      some ⟨"SOLUSDT", 1, 0, 0, 0, 0, 0, 0, some ⟨1000, 1000⟩⟩ := by
  constructor
  · exact fetch_liquidity_filter.1 _ _ "ABCUSDT"
      ⟨"ABCUSDT", 2, 0, 0, 0, 0, 0, 0, some ⟨1000000, 0⟩⟩ ⟨1000000, 0⟩
      (by simp) (by simp [isPositionSymbol]) (by simp) rfl (by norm_num)
      (by norm_num)
  · exact fetch_liquidity_filter.2 _ _ "SOLUSDT"
      ⟨"SOLUSDT", 1, 0, 0, 0, 0, 0, 0, some ⟨1000, 1000⟩⟩
      (by simp [isPositionSymbol]) (by simp)

/-- C10: the liquidity filter is applied only when the snapshot has
open-interest data and a strictly positive price: a candidate whose
snapshot has `OpenInterest = nil` or `CurrentPrice ≤ 0` bypasses the 15M
filter entirely and is included in MarketDataMap whatever its actual
liquidity. -/
theorem fetch_filter_bypass :
    ∀ (ctx : TradingContext) (fetch : String → Except String MarketData)
      (symbol : String) (data : MarketData),
      symbol ∈ ctx.candidateCoins.map (·.symbol) →
      ¬ isPositionSymbol ctx symbol →
      fetch symbol = .ok data →
      (data.openInterest = none ∨ data.currentPrice ≤ 0) →
      marketDataMapAfterFetch ctx fetch symbol = some data := by
  intro ctx fetch symbol data hcand hnpos hfetch hbypass
  have hmem : symbol ∈ fetchSymbolSet ctx := by
    unfold fetchSymbolSet calculateMaxCandidates
    rw [List.take_length]
    exact List.mem_append_right _ hcand
  simp only [marketDataMapAfterFetch, if_pos hmem, hfetch]
  rcases hbypass with hnone | hple
  · rw [hnone]
  · cases hoi : data.openInterest with
    | none => simp
    | some oi =>
      have hcond : ¬ (¬ isPositionSymbol ctx symbol ∧ 0 < data.currentPrice ∧
          oi.latest * data.currentPrice / 1000000 < 15) :=
        fun hx => absurd hple (not_le.mpr hx.2.1)
      simp [hcond]

/-- C10 witness: candidate NOOIUSDT with no open-interest data is included
despite the filter. -/
theorem fetch_filter_bypass_witness :
    marketDataMapAfterFetch
      ⟨"t", 0, 0, ⟨100, 100, 0, 0, 0, 0, 0⟩, [],
        [⟨"NOOIUSDT", ["ai500"]⟩], [], none⟩
      (fun _ => .ok ⟨"NOOIUSDT", 5, 0, 0, 0, 0, 0, 0, none⟩)
      "NOOIUSDT" = some ⟨"NOOIUSDT", 5, 0, 0, 0, 0, 0, 0, none⟩ :=
  fetch_filter_bypass _ _ "NOOIUSDT" ⟨"NOOIUSDT", 5, 0, 0, 0, 0, 0, 0, none⟩
    (by simp) (by simp [isPositionSymbol]) rfl (Or.inl rfl)

/-- `String.data` distributes over append (definitional). -/
theorem str_data_append (a b : String) : (a ++ b).data = a.data ++ b.data := rfl

/-- Character membership in an appended string splits componentwise. -/
theorem mem_str_append {c : Char} {a b : String} :
    c ∈ (a ++ b).data ↔ c ∈ a.data ∨ c ∈ b.data :=
  List.mem_append

/-- Every character emitted by the numeric renderer is ASCII. -/
theorem fmtNum_ascii (q : ℚ) {c : Char} (hc : c ∈ (fmtNum q).data) :
    c.toNat < 128 := by
  unfold fmtNum at hc
  have := List.of_mem_filter hc
  simpa using this

/-- Every recommendation produced by `getAdaptiveBehaviorRecommendation`
starts with the fixed block header. -/
theorem adaptiveHeader_starts (s e : ℚ) :
    ("### 🎯 自适应行为建议（基于夏普比率）\n\n" : String).data <+:
      (getAdaptiveBehaviorRecommendation s e).data := by
  unfold getAdaptiveBehaviorRecommendation
  exact ⟨_, rfl⟩

/-- C4 (amended): whenever performance data is present, the user prompt
contains the current-Sharpe-ratio block (`## 📊 夏普比率: …`).  The
AdaptiveFeedbackEngine recommendation block is *not* part of the prompt —
`getAdaptiveBehaviorRecommendation` is never invoked by `buildUserPrompt`
(see the counterexample). -/
theorem buildUserPrompt_contains_sharpe (ctx : TradingContext)
    (p : PerformanceData) (hp : ctx.performance = some p) :
    StrContains (buildUserPrompt ctx)
      ("## 📊 夏普比率: " ++ fmtNum p.sharpeRatio ++ "\n\n") := by
  unfold StrContains buildUserPrompt
  have hperf : promptPerformance ctx =
      "## 📊 夏普比率: " ++ fmtNum p.sharpeRatio ++ "\n\n" := by
    unfold promptPerformance
    rw [hp]
  rw [hperf]
  refine ⟨(promptHeader ctx ++ promptBTC ctx ++ promptAccount ctx ++
    promptPositions ctx ++ promptCandidates ctx).data,
    ("---\n\n现在请分析并输出决策（思维链 + JSON）\n" : String).data, ?_⟩
  simp [str_data_append, List.append_assoc]

/-- C4 counterexample: a context with performance data present (Sharpe −0.8)
whose user prompt does *not* contain the recommendation block that
`getAdaptiveBehaviorRecommendation` would produce for that Sharpe ratio and
equity: the prompt has no `🎯` character at all, while every recommendation
block starts with the `### 🎯` header. -/
theorem buildUserPrompt_missing_adaptive_block :
    (⟨"2024-01-01 00:00", 10, 1, ⟨1000, 1000, 0, 0, 0, 0, 0⟩, [], [], [],
        some ⟨-0.8⟩⟩ : TradingContext).performance = some ⟨-0.8⟩ ∧
    ¬ StrContains
        (buildUserPrompt ⟨"2024-01-01 00:00", 10, 1,
          ⟨1000, 1000, 0, 0, 0, 0, 0⟩, [], [], [], some ⟨-0.8⟩⟩)
        (getAdaptiveBehaviorRecommendation (-0.8) 1000) := by
  refine ⟨rfl, ?_⟩
  intro hinfix
  have hgear : '🎯' ∈ (getAdaptiveBehaviorRecommendation (-0.8) 1000).data :=
    (adaptiveHeader_starts (-0.8) 1000).sublist.subset (by decide)
  have hmem : '🎯' ∈ (buildUserPrompt ⟨"2024-01-01 00:00", 10, 1,
      ⟨1000, 1000, 0, 0, 0, 0, 0⟩, [], [], [], some ⟨-0.8⟩⟩).data :=
    hinfix.sublist.subset hgear
  simp only [buildUserPrompt, promptHeader, promptBTC, promptAccount,
    promptPositions, promptCandidates, promptPerformance, List.lookup,
    List.length_nil, List.enum_nil, List.map_nil, List.filterMap_nil,
    String.join, List.foldl, lt_irrefl, if_false, mem_str_append] at hmem
  have hfmt : ∀ q : ℚ, ('🎯' ∈ (fmtNum q).data) = False :=
    fun q => eq_false fun h => absurd (fmtNum_ascii q h) (by decide)
  simp only [hfmt, or_false, false_or] at hmem
  exact absurd hmem (by decide)

/-- C4 witness: a concrete context with performance data present whose
prompt contains the Sharpe-ratio block. -/
theorem buildUserPrompt_contains_sharpe_witness :
    StrContains
      (buildUserPrompt ⟨"t", 0, 0, ⟨500, 500, 0, 0, 0, 0, 0⟩, [], [], [],
        some ⟨1.3⟩⟩)
      ("## 📊 夏普比率: " ++ fmtNum (1.3 : ℚ) ++ "\n\n") :=
  buildUserPrompt_contains_sharpe _ ⟨1.3⟩ rfl
